import Mathlib

/-!
# Net::Download (launcher/net/Download.cpp): mirror rewriting and the transfer state machine

A shallow embedding of `Download::startImpl`, `Download::downloadError`,
`Download::handleRedirect`, `Download::downloadFinished`,
`Download::downloadReadyRead` and `Net::Download::abort`.

Modelling conventions.

* A `QString` is the list of its characters; `contains`, `replace`, `startsWith`,
  `endsWith` and `trimmed` are defined on lists.
* A `QUrl` value is represented by the string handed to its constructor.  What Qt
  makes of that string (`QUrl::toString`, `QUrl::fromUserInput`, tolerant parsing,
  `scheme`, `setPath`) is library behaviour outside the repository and is a field
  of `Env`.
* The sink (`m_sink`) is an abstract object: a state type together with the five
  virtual methods the Download calls.
* Everything a Download does to the outside (signals, sink calls, transport
  requests) is appended to `trace`.
-/

namespace Net

abbrev QString := List Char
abbrev QByteArray := List (Fin 256)

/-! ## QString operations -/

/-- Qt `QString::contains(pat)`: `pat` occurs as a contiguous run of `s`. The empty
pattern occurs in every string. -/
def contains : QString → QString → Bool
  | [], pat => pat.isEmpty
  | c :: cs, pat => pat.isPrefixOf (c :: cs) || contains cs pat

/-- Left-to-right scan of `QString::replace(before, after)` for a non-empty `before`;
`skip` counts the characters of a match that are still to be passed over. -/
def replaceScan (before after : QString) : Nat → QString → QString
  | _, [] => []
  | skip + 1, _ :: cs => replaceScan before after skip cs
  | 0, c :: cs =>
    if before.isPrefixOf (c :: cs) then after ++ replaceScan before after (before.length - 1) cs
    else c :: replaceScan before after 0 cs

/-- Qt `QString::replace(before, after)`: every occurrence of `before`, found left to
right without overlap, is replaced by `after`. With an empty `before`, `after` is
inserted ahead of every character and at the end. -/
def replace (s before after : QString) : QString :=
  if before.isEmpty then after ++ s.flatMap (fun c => c :: after)
  else replaceScan before after 0 s

def startsWith (s pre : QString) : Bool := pre.isPrefixOf s

def endsWith (s suf : QString) : Bool := suf.isSuffixOf s

/-- Qt `QChar::isSpace`: the ASCII white space characters, NEL, and the Unicode
separators (categories Zs, Zl, Zp). -/
def isSpace (c : Char) : Bool :=
  let n := c.toNat
  n == 0x20 || (0x09 ≤ n && n ≤ 0x0d) || n == 0x85 || n == 0xa0 || n == 0x1680 ||
  (0x2000 ≤ n && n ≤ 0x200a) || n == 0x2028 || n == 0x2029 || n == 0x202f ||
  n == 0x205f || n == 0x3000

/-- Qt `QString::trimmed`: white space removed from both ends. -/
def trimmed (s : QString) : QString :=
  ((s.dropWhile isSpace).reverse.dropWhile isSpace).reverse

/-! ## Configuration and Qt behaviour consulted by the Download -/

/-- The application settings read by `startImpl`, and the Qt URL functions it and
`handleRedirect` call. -/
structure Env where
  /-- Result of `APPLICATION->getconfigfile()` -/
  getconfigfile : Bool
  /-- Setting `Downloadsource` -/
  Downloadsource : QString
  /-- Setting `Downloadsourceproxy` -/
  Downloadsourceproxy : Bool
  /-- Setting `Downloadsourceurl` -/
  Downloadsourceurl : QString
  /-- Function `QUrl(s).toString()` -/
  urlToString : QString → QString
  /-- Function `QUrl::fromUserInput(s).toString()` -/
  fromUserInput : QString → QString
  /-- Function `QUrl(s, QUrl::TolerantMode)`: `none` when the result is not valid, otherwise
  its `toString()` -/
  tolerantParse : QString → Option QString
  /-- Function `QUrl(u).scheme()` -/
  scheme : QString → QString
  /-- Call `url.setPath(p, QUrl::TolerantMode)` on `url = QUrl(u)`, then `url.toString()` -/
  setPath : QString → QString → QString
  /-- Function `QString::fromUtf8` -/
  fromUtf8 : QByteArray → QString
  /-- Constant `BuildConfig.USER_AGENT` -/
  USER_AGENT : QString

/-! ## URL rewriting (startImpl, lines 80-138) -/

structure Replacement where
  search : QString
  replace : QString
deriving DecidableEq

/-- The table `replacements[]` of `startImpl`. -/
def replacements : List Replacement :=
  [ ⟨"resources.download.minecraft.net".toList, "<j_url>/assets".toList⟩,
    ⟨"libraries.minecraft.net".toList, "<j_url>/maven".toList⟩,
    ⟨"maven.fabricmc.net".toList, "<j_url>/maven".toList⟩,
    ⟨"launchermeta.mojang.com".toList, "<j_url>".toList⟩,
    ⟨"launcher.mojang.com".toList, "<j_url>".toList⟩,
    ⟨"files.minecraftforge.net".toList, "<j_url>".toList⟩,
    ⟨"meta.fabricmc.net".toList, "<j_url>/fabric-meta".toList⟩,
    ⟨"maven.neoforged.net/releases".toList, "<j_url>/maven".toList⟩,
    ⟨"maven.quiltmc.org/repository/release".toList, "<j_url>/maven".toList⟩,
    ⟨"meta.quiltmc.org".toList, "<j_url>/quilt-meta".toList⟩,
    ⟨"edge.forgecdn.net".toList, [] ⟩,
    ⟨"mediafilez.forgecdn.net".toList, [] ⟩ ]

/-- The value of `source` after lines 80-83. -/
def downloadSource (env : Env) : QString :=
  if env.getconfigfile then env.Downloadsource else "Mojang".toList

/-- The value of `baseUrl` after lines 89-101: the trimmed setting, and when that is
not empty its `fromUserInput` form with `http://` turned into `https://` and a
trailing `/` ensured. -/
def mirrorBase (env : Env) : QString :=
  let baseUrl := trimmed env.Downloadsourceurl
  if !baseUrl.isEmpty then
    let baseUrl := env.fromUserInput baseUrl
    let baseUrl :=
      if !startsWith baseUrl "https://".toList then
        replace baseUrl "http://".toList "https://".toList
      else baseUrl
    if !endsWith baseUrl "/".toList then baseUrl ++ ['/'] else baseUrl
  else baseUrl

/-- The `for` loop of lines 121-137 over the remaining table entries; `m_url` is the
URL bound so far. In proxy mode the loop runs on after an assignment; the
replacing branch ends it (`break`). -/
def rewriteLoop (useProxy : Bool) (baseUrl host : QString) :
    List Replacement → QString → QString
  | [], m_url => m_url
  | replacement :: rest, m_url =>
    if contains host replacement.search && !contains host baseUrl then
      let replacementUrl := if baseUrl.isEmpty then [] else baseUrl ++ replacement.replace
      if useProxy && !baseUrl.isEmpty then
        rewriteLoop useProxy baseUrl host rest (baseUrl ++ host)
      else if !replacementUrl.isEmpty then
        Net.replace host replacement.search replacementUrl
      else rewriteLoop useProxy baseUrl host rest m_url
    else rewriteLoop useProxy baseUrl host rest m_url

/-- The URL rewriting step of `startImpl` (lines 80-138): the new value of `m_url`. -/
def rewriteUrl (env : Env) (m_url : QString) : QString :=
  if downloadSource env ≠ "Mojang".toList then
    rewriteLoop env.Downloadsourceproxy (mirrorBase env) (env.urlToString m_url)
      replacements m_url
  else m_url

/-! ## The Download object -/

inductive JobStatus
  | Job_NotStarted
  | Job_InProgress
  | Job_Failed_Proceed
  | Job_Failed
  | Job_Aborted
  | Job_Finished
deriving DecidableEq, Repr

open JobStatus

/-- The values of `QNetworkReply::NetworkError` the code distinguishes; every other
error code is `other`. -/
inductive NetworkError
  | OperationCanceledError
  | ProtocolFailure
  | other (code : Nat)
deriving DecidableEq, Repr

/-- A `QNetworkRequest`: its URL and the headers set on it, in the order set. -/
structure QNetworkRequest where
  url : QString
  headers : List (QString × QString)
deriving DecidableEq, Repr

/-- The `QNetworkReply` held in `m_reply`; `url` is the URL of the request it
answers (`m_reply->url()`). -/
structure QNetworkReply where
  url : QString
deriving DecidableEq, Repr

/-- What the reply holds when it signals `finished`. -/
structure Response where
  /-- Value of `header(QNetworkRequest::LocationHeader).toUrl()`: `none` when that URL
  is not valid, otherwise its `toString()` -/
  locationHeader : Option QString
  /-- Value of `rawHeader("Location")`, `none` when `hasRawHeader("Location")` is false -/
  rawLocation : Option QByteArray
  /-- Bytes returned by `readAll()` -/
  data : QByteArray
deriving DecidableEq, Repr

/-- The virtual interface of `Net::Sink` used by the Download, over a sink state `σ`. -/
structure Sink (σ : Type) where
  init : σ → QNetworkRequest → JobStatus × σ
  write : σ → QByteArray → JobStatus × σ
  abort : σ → σ
  finalize : σ → Response → JobStatus × σ
  hasLocalData : σ → Bool

/-- One outward action of a Download: a signal emitted, a call into the sink, or a
call into the transport. -/
inductive Effect
  | succeeded (index : Nat)
  | failed (index : Nat)
  | aborted (index : Nat)
  | netActionProgress (index : Nat) (bytesReceived bytesTotal : Int)
  | sinkInit (request : QNetworkRequest)
  | sinkWrite (data : QByteArray)
  | sinkFinalize
  | sinkAbort
  | get (request : QNetworkRequest)
  | replyAbort
deriving DecidableEq, Repr

/-- The members of `Net::Download` the modelled functions read or write.
`acceptLocalFiles` is the truth value of `m_options & Option::AcceptLocalFiles`;
`m_reply = none` is the null pointer. -/
structure Download (σ : Type) where
  m_status : JobStatus
  m_url : QString
  acceptLocalFiles : Bool
  m_extra_headers : List (QString × QString)
  m_sink : σ
  m_reply : Option QNetworkReply
  m_index_within_job : Nat
  m_progress : Int
  m_total_progress : Int
  trace : List Effect

variable {σ : Type}

def Download.emit (d : Download σ) (e : Effect) : Download σ :=
  { d with trace := d.trace ++ [e] }

/-- The effects `d'` has recorded beyond those of `d`. -/
def Download.since (d d' : Download σ) : List Effect :=
  d'.trace.drop d.trace.length

/-- Body of `Download::startImpl`. -/
def startImpl (env : Env) (sink : Sink σ) (d : Download σ) : Download σ :=
  if d.m_status = Job_Aborted then
    d.emit (.aborted d.m_index_within_job)
  else
    let d := { d with m_url := rewriteUrl env d.m_url }
    let request : QNetworkRequest := ⟨d.m_url, []⟩
    let r := sink.init d.m_sink request
    let d := { d with m_status := r.1, m_sink := r.2 }.emit (.sinkInit request)
    match d.m_status with
    | Job_Finished => d.emit (.succeeded d.m_index_within_job)
    | Job_InProgress =>
      let request : QNetworkRequest :=
        ⟨d.m_url, ("User-Agent".toList, env.USER_AGENT) :: d.m_extra_headers⟩
      { d with m_reply := some ⟨request.url⟩ }.emit (.get request)
    | Job_Failed_Proceed => d.emit (.failed d.m_index_within_job)
    | Job_NotStarted => d.emit (.failed d.m_index_within_job)
    | Job_Failed => d.emit (.failed d.m_index_within_job)
    | Job_Aborted => d

/-- Modelled from the spec: `NetAction::start`, declared outside the given sources;
the spec has a redirect "restart from step 1 of `perform`", so it runs `startImpl`. -/
def start (env : Env) (sink : Sink σ) (d : Download σ) : Download σ :=
  startImpl env sink d

/-- Body of `Download::downloadProgress`. -/
def downloadProgress (d : Download σ) (bytesReceived bytesTotal : Int) : Download σ :=
  { d with m_total_progress := bytesTotal, m_progress := bytesReceived }.emit
    (.netActionProgress d.m_index_within_job bytesReceived bytesTotal)

/-- Body of `Download::downloadError`. -/
def downloadError (sink : Sink σ) (d : Download σ) (error : NetworkError) : Download σ :=
  if error = .OperationCanceledError then
    { d with m_status := Job_Aborted }
  else if d.acceptLocalFiles && sink.hasLocalData d.m_sink then
    { d with m_status := Job_Failed_Proceed }
  else
    { d with m_status := Job_Failed }

/-- The workarounds of lines 236-253 on the text of a raw `Location` header. -/
def fixLocation (env : Env) (reply : QNetworkReply) (redirectStr : QString) : QString :=
  if startsWith redirectStr "//".toList then
    env.scheme reply.url ++ ":".toList ++ redirectStr
  else if startsWith redirectStr "/".toList then
    env.setPath reply.url redirectStr
  else redirectStr

/-- Body of `Download::handleRedirect`, on the reply held in `m_reply` and what it
holds at `finished`; the result is the return value and the Download afterwards. -/
def handleRedirect (env : Env) (sink : Sink σ) (d : Download σ) (reply : QNetworkReply)
    (resp : Response) : Bool × Download σ :=
  match resp.locationHeader with
  | some redirect => (true, start env sink { d with m_url := redirect })
  | none =>
    match resp.rawLocation with
    | none => (false, d)
    | some redirectBA =>
      if redirectBA.length = 0 then (false, d)
      else
        let redirectStr := fixLocation env reply (env.fromUtf8 redirectBA)
        match env.tolerantParse redirectStr with
        | none => (false, downloadError sink d .ProtocolFailure)
        | some redirect => (true, start env sink { d with m_url := redirect })

/-- Lines 316-321 of `downloadFinished`: what `readAll()` still returns is written to
the sink, when there is any. -/
def drain (sink : Sink σ) (d : Download σ) (data : QByteArray) : Download σ :=
  if data.length ≠ 0 then
    let w := sink.write d.m_sink data
    { d with m_status := w.1, m_sink := w.2 }.emit (.sinkWrite data)
  else d

/-- Body of `Download::downloadFinished`. -/
def downloadFinished (env : Env) (sink : Sink σ) (d : Download σ) (reply : QNetworkReply)
    (resp : Response) : Download σ :=
  let r := handleRedirect env sink d reply resp
  if r.1 then r.2
  else
    let d := r.2
    if d.m_status = Job_Failed_Proceed then
      { ({ d with m_sink := sink.abort d.m_sink }.emit .sinkAbort) with m_reply := none }.emit
        (.succeeded d.m_index_within_job)
    else if d.m_status = Job_Failed then
      { ({ d with m_sink := sink.abort d.m_sink }.emit .sinkAbort) with m_reply := none }.emit
        (.failed d.m_index_within_job)
    else if d.m_status = Job_Aborted then
      { ({ d with m_sink := sink.abort d.m_sink }.emit .sinkAbort) with m_reply := none }.emit
        (.aborted d.m_index_within_job)
    else
      let d := drain sink d resp.data
      let f := sink.finalize d.m_sink resp
      let d := { d with m_status := f.1, m_sink := f.2 }.emit .sinkFinalize
      if d.m_status ≠ Job_Finished then
        { ({ d with m_sink := sink.abort d.m_sink }.emit .sinkAbort) with m_reply := none }.emit
          (.failed d.m_index_within_job)
      else
        { d with m_reply := none }.emit (.succeeded d.m_index_within_job)

/-- Body of `Download::downloadReadyRead`; `data` is what `m_reply->readAll()` returns. -/
def downloadReadyRead (sink : Sink σ) (d : Download σ) (data : QByteArray) : Download σ :=
  if d.m_status = Job_InProgress then
    let w := sink.write d.m_sink data
    { d with m_status := w.1, m_sink := w.2 }.emit (.sinkWrite data)
  else d

/-- Body of `Net::Download::abort` (its return value is always `true`). -/
def abort (d : Download σ) : Download σ :=
  match d.m_reply with
  | some _ => d.emit .replyAbort
  | none => { d with m_status := Job_Aborted }

/-- `Net::Download::canAbort`. -/
def canAbort (_d : Download σ) : Bool := true

/-- An operation on one Download: the two calls of its owner and the signals of the
reply it holds. -/
inductive Op
  | start
  | abort
  | readyRead (data : QByteArray)
  | error (error : NetworkError)
  | finished (resp : Response)
  | progress (bytesReceived bytesTotal : Int)

/-- One operation. The signals `readyRead`, `error`, `finished` and `downloadProgress`
come from the reply in `m_reply`; with no reply held none can be delivered. -/
def step (env : Env) (sink : Sink σ) (d : Download σ) : Op → Download σ
  | .start => start env sink d
  | .abort => abort d
  | .readyRead data =>
    match d.m_reply with
    | some _ => downloadReadyRead sink d data
    | none => d
  | .error e =>
    match d.m_reply with
    | some _ => downloadError sink d e
    | none => d
  | .finished resp =>
    match d.m_reply with
    | some reply => downloadFinished env sink d reply resp
    | none => d
  | .progress r t =>
    match d.m_reply with
    | some _ => downloadProgress d r t
    | none => d

/-- A sequence of operations, in order. -/
def run (env : Env) (sink : Sink σ) (d : Download σ) (ops : List Op) : Download σ :=
  ops.foldl (step env sink) d

/-- The Download built by the constructor and `makeByteArray` / `makeFile` /
`makeCached`: status `Job_NotStarted`, no reply, nothing done yet. -/
def Download.make (url : QString) (acceptLocalFiles : Bool) (sink0 : σ) (index : Nat) :
    Download σ :=
  { m_status := Job_NotStarted, m_url := url, acceptLocalFiles := acceptLocalFiles,
    m_extra_headers := [], m_sink := sink0, m_reply := none, m_index_within_job := index,
    m_progress := 0, m_total_progress := 0, trace := [] }

/-- Operations under which a status of `Job_Aborted` stays: `start`, `abort`, body
chunks, progress, the cancellation error, and a completion whose `Location` header
is a valid URL, is absent or is empty. -/
def Op.keepsAborted : Op → Bool
  | .start => true
  | .abort => true
  | .readyRead _ => true
  | .progress _ _ => true
  | .error e => decide (e = .OperationCanceledError)
  | .finished resp =>
    resp.locationHeader.isSome || decide (resp.rawLocation = none) ||
      decide (resp.rawLocation = some [])

/-- Operations under which a status of `Job_Finished` stays: body chunks, progress,
and `abort` while a reply is held (`held`). -/
def Op.keepsFinished (held : Bool) : Op → Bool
  | .readyRead _ => true
  | .progress _ _ => true
  | .abort => held
  | _ => false

/-- The return value of `Net::Download::abort` (line 368). -/
def abortReturn (_d : Download σ) : Bool := true

/-- The effects that report an outcome other than `aborted`: the signals `succeeded`
and `failed`. -/
def Effect.isOutcome : Effect → Bool
  | .succeeded _ => true
  | .failed _ => true
  | _ => false

/-! ## Concrete instances used to evaluate the definitions -/

/-- A configuration with the given source settings in which every Qt URL function
returns its argument as it is; tolerant parsing rejects the empty string and a
string with an opening square bracket that is never closed. -/
def plainEnv (source : QString) (useProxy : Bool) (url : QString) : Env where
  getconfigfile := true
  Downloadsource := source
  Downloadsourceproxy := useProxy
  Downloadsourceurl := url
  urlToString := id
  fromUserInput := id
  tolerantParse := fun s =>
    if s.isEmpty || (s.contains '[' && !s.contains ']') then none else some s
  scheme := fun u => u.takeWhile (fun c => c != ':')
  setPath := fun u p => u.takeWhile (fun c => c != '/') ++ p
  fromUtf8 := fun b => b.map (fun x => Char.ofNat x.val)
  USER_AGENT := "MiniSkins".toList

/-- State of a sink whose answers are fixed in advance. -/
structure FixedSink where
  initResult : JobStatus
  writeResult : JobStatus
  finalizeResult : JobStatus
  localData : Bool
deriving DecidableEq, Repr

/-- The bytes of a string of characters below 256. -/
def latin1 (s : QString) : QByteArray := s.map (fun c => Fin.ofNat c.toNat)

/-- The sink that gives the answers fixed in its state and never changes. -/
def fixedSink : Sink FixedSink where
  init := fun s _ => (s.initResult, s)
  write := fun s _ => (s.writeResult, s)
  abort := fun s => s
  finalize := fun s _ => (s.finalizeResult, s)
  hasLocalData := fun s => s.localData

/-! ## URL rewriting: lemmas -/

theorem contains_nil (s : QString) : contains s [] = true := by
  cases s <;> simp [contains]

/-- With an empty base no table entry passes the test of line 123. -/
theorem rewriteLoop_nil_base (useProxy : Bool) (host : QString) (table : List Replacement)
    (m_url : QString) : rewriteLoop useProxy [] host table m_url = m_url := by
  induction table generalizing m_url with
  | nil => rfl
  | cons r rest ih => simp [rewriteLoop, contains_nil, ih]

/-- In proxy mode the loop binds `baseUrl + host` as soon as one entry matches and
keeps that value, however many further entries match. -/
theorem rewriteLoop_proxy (baseUrl host : QString) (hb : baseUrl ≠ [])
    (hc : contains host baseUrl = false) (table : List Replacement) (m_url : QString) :
    rewriteLoop true baseUrl host table m_url =
      if table.any (fun r => contains host r.search) then baseUrl ++ host else m_url := by
  induction table generalizing m_url with
  | nil => rfl
  | cons r rest ih =>
    by_cases h : contains host r.search = true
    · simp [rewriteLoop, h, hc, hb, ih]
    · simp [rewriteLoop, h, ih]

/-- Entries whose fragment does not occur in `host` are passed over. -/
theorem rewriteLoop_skip (useProxy : Bool) (baseUrl host : QString)
    (pre rest : List Replacement) (m_url : QString)
    (hpre : ∀ r ∈ pre, contains host r.search = false) :
    rewriteLoop useProxy baseUrl host (pre ++ rest) m_url =
      rewriteLoop useProxy baseUrl host rest m_url := by
  induction pre with
  | nil => rfl
  | cons r pre ih =>
    have h1 : contains host r.search = false := hpre r (by simp)
    have h2 := ih (fun x hx => hpre x (by simp [hx]))
    simp [rewriteLoop, h1, h2]

/-! ## URL rewriting: claims -/

/-- C1 (as the code has it): with a non-default download source, proxy mode off and
a non-empty mirror base `b` that does not occur in the URL string `u`, the rewriting
step binds `u` with every occurrence of the fragment of the first table entry found
in `u` replaced by `b` followed by that entry's table suffix. -/
theorem rewriteUrl_replaces_first_match (env : Env) (m_url : QString)
    (pre post : List Replacement) (e : Replacement)
    (hsrc : downloadSource env ≠ "Mojang".toList)
    (hproxy : env.Downloadsourceproxy = false)
    (hb : mirrorBase env ≠ [])
    (hc : contains (env.urlToString m_url) (mirrorBase env) = false)
    (htable : replacements = pre ++ e :: post)
    (hpre : ∀ r ∈ pre, contains (env.urlToString m_url) r.search = false)
    (he : contains (env.urlToString m_url) e.search = true) :
    rewriteUrl env m_url =
      replace (env.urlToString m_url) e.search (mirrorBase env ++ e.replace) := by
  unfold rewriteUrl
  rw [if_pos hsrc, htable, rewriteLoop_skip _ _ _ pre (e :: post) m_url hpre]
  simp [rewriteLoop, he, hc, hproxy, hb]

/-- C1, witness: the entry for `libraries.minecraft.net` on the scenario's input. -/
theorem rewriteUrl_replaces_first_match_witness :
    rewriteUrl (plainEnv "BMCLAPI".toList false "https://mirror.example/".toList)
        "https://libraries.minecraft.net/x.jar".toList =
      replace "https://libraries.minecraft.net/x.jar".toList
        "libraries.minecraft.net".toList
        ("https://mirror.example/".toList ++ "<j_url>/maven".toList) :=
  rewriteUrl_replaces_first_match
    (plainEnv "BMCLAPI".toList false "https://mirror.example/".toList)
    "https://libraries.minecraft.net/x.jar".toList
    (replacements.take 1) (replacements.drop 2)
    ⟨"libraries.minecraft.net".toList, "<j_url>/maven".toList⟩
    (by decide) rfl (by decide) (by decide) (by decide) (by decide) (by decide)

/-- C1, counterexample: for the request URL `https://libraries.minecraft.net/x.jar`
and mirror base `https://mirror.example/` (non-default source, proxy mode off) the
rewritten URL is `https://https://mirror.example/<j_url>/maven/x.jar`, which is not
`https://mirror.example/maven/x.jar`. -/
theorem rewriteUrl_scenario_counterexample :
    rewriteUrl (plainEnv "BMCLAPI".toList false "https://mirror.example/".toList)
        "https://libraries.minecraft.net/x.jar".toList
      = "https://https://mirror.example/<j_url>/maven/x.jar".toList ∧
    rewriteUrl (plainEnv "BMCLAPI".toList false "https://mirror.example/".toList)
        "https://libraries.minecraft.net/x.jar".toList
      ≠ "https://mirror.example/maven/x.jar".toList := by
  decide

/-- C2: when the configured mirror base is empty after trimming, the rewriting step
leaves the URL as it is, for every URL, download source and proxy-mode setting. -/
theorem rewriteUrl_empty_base (env : Env) (m_url : QString)
    (h : trimmed env.Downloadsourceurl = []) : rewriteUrl env m_url = m_url := by
  have hb : mirrorBase env = [] := by simp [mirrorBase, h]
  unfold rewriteUrl
  split
  · rw [hb, rewriteLoop_nil_base]
  · rfl

/-- C2, witness: a mirror base of blanks only, proxy mode on. -/
theorem rewriteUrl_empty_base_witness :
    trimmed (plainEnv "BMCLAPI".toList true "  ".toList).Downloadsourceurl = [] ∧
    rewriteUrl (plainEnv "BMCLAPI".toList true "  ".toList)
        "https://libraries.minecraft.net/x.jar".toList
      = "https://libraries.minecraft.net/x.jar".toList :=
  ⟨by decide, rewriteUrl_empty_base _ _ (by decide)⟩

/-- C3: with a non-default download source, proxy mode on and a non-empty normalised
mirror base `b`, a URL string `u` that contains a fragment of the table and does not
contain `b` is rewritten to `b ++ u`, however many entries match. -/
theorem rewriteUrl_proxy (env : Env) (m_url : QString)
    (hsrc : downloadSource env ≠ "Mojang".toList)
    (hproxy : env.Downloadsourceproxy = true)
    (hb : mirrorBase env ≠ [])
    (hfrag : ∃ r ∈ replacements, contains (env.urlToString m_url) r.search = true)
    (hc : contains (env.urlToString m_url) (mirrorBase env) = false) :
    rewriteUrl env m_url = mirrorBase env ++ env.urlToString m_url := by
  unfold rewriteUrl
  rw [if_pos hsrc, hproxy, rewriteLoop_proxy _ _ hb hc]
  have : replacements.any (fun r => contains (env.urlToString m_url) r.search) = true := by
    obtain ⟨r, hr, h⟩ := hfrag
    exact List.any_eq_true.mpr ⟨r, hr, h⟩
  rw [if_pos this]

/-- C3, witness: a URL in which two table fragments occur
(`launchermeta.mojang.com` and `launcher.mojang.com`). -/
theorem rewriteUrl_proxy_witness :
    rewriteUrl (plainEnv "BMCLAPI".toList true "http://mirror.example".toList)
        "https://launchermeta.mojang.com/?via=launcher.mojang.com".toList
      = "https://mirror.example/".toList ++
        "https://launchermeta.mojang.com/?via=launcher.mojang.com".toList :=
  rewriteUrl_proxy (plainEnv "BMCLAPI".toList true "http://mirror.example".toList)
    "https://launchermeta.mojang.com/?via=launcher.mojang.com".toList
    (by decide) rfl (by decide)
    ⟨⟨"launcher.mojang.com".toList, "<j_url>".toList⟩, by decide, by decide⟩ (by decide)

/-! ## The state machine: lemmas -/

/-- When `handleRedirect` returns false it has changed nothing but, possibly, the
status (through `downloadError`). -/
theorem handleRedirect_false (env : Env) (sink : Sink σ) (d : Download σ)
    (reply : QNetworkReply) (resp : Response)
    (h : (handleRedirect env sink d reply resp).1 = false) :
    (handleRedirect env sink d reply resp).2 =
      { d with m_status := (handleRedirect env sink d reply resp).2.m_status } := by
  unfold handleRedirect at h ⊢
  cases hl : resp.locationHeader with
  | some r => simp [hl] at h
  | none =>
    cases hraw : resp.rawLocation with
    | none => simp
    | some ba =>
      simp only [hl, hraw] at h ⊢
      split
      · rfl
      · split
        · simp only [downloadError]
          split
          · rfl
          · split <;> rfl
        · rename_i heq
          simp [hl, hraw, heq] at h
          simp_all

/-! ## The state machine: claims -/

/-- C4 (as the code has it): when the sink's `init` returns anything other than
`Job_Finished` and `Job_InProgress`, `start` issues no transport request and holds no
new reply; when the value is `Job_Failed`, `Job_Failed_Proceed` or `Job_NotStarted` it
reports `failed` for the Download's index, once and at once. -/
theorem start_init_refused (env : Env) (sink : Sink σ) (d : Download σ)
    (hstart : d.m_status ≠ Job_Aborted)
    (hfin : (sink.init d.m_sink ⟨rewriteUrl env d.m_url, []⟩).1 ≠ Job_Finished)
    (hprog : (sink.init d.m_sink ⟨rewriteUrl env d.m_url, []⟩).1 ≠ Job_InProgress) :
    (∀ req, Effect.get req ∉ d.since (start env sink d)) ∧
    (start env sink d).m_reply = d.m_reply ∧
    (start env sink d).m_status = (sink.init d.m_sink ⟨rewriteUrl env d.m_url, []⟩).1 ∧
    ((sink.init d.m_sink ⟨rewriteUrl env d.m_url, []⟩).1 ≠ Job_Aborted →
      d.since (start env sink d) =
        [.sinkInit ⟨rewriteUrl env d.m_url, []⟩, .failed d.m_index_within_job]) := by
  cases hi : (sink.init d.m_sink ⟨rewriteUrl env d.m_url, []⟩).1 <;>
    simp_all [start, startImpl, Download.since, Download.emit]

/-- C4, witness: a sink whose `init` returns `Job_Failed`. -/
theorem start_init_refused_witness :
    (start (plainEnv "Mojang".toList false []) fixedSink
      (Download.make "https://a.example/f".toList false
        ⟨Job_Failed, Job_InProgress, Job_Finished, false⟩ 7)).trace =
      [.sinkInit ⟨"https://a.example/f".toList, []⟩, .failed 7] :=
  (start_init_refused (plainEnv "Mojang".toList false []) fixedSink
    (Download.make "https://a.example/f".toList false
      ⟨Job_Failed, Job_InProgress, Job_Finished, false⟩ 7)
    (by decide) (by decide) (by decide)).2.2.2 (by decide)

/-- C4, counterexample: when the sink's `init` returns `Job_Aborted`, `start` calls
`init`, reports nothing and returns; `failed` is not reported. -/
theorem start_init_aborted_counterexample :
    (fixedSink.init (⟨Job_Aborted, Job_InProgress, Job_Finished, false⟩ : FixedSink)
      ⟨"https://a.example/f".toList, []⟩).1 = Job_Aborted ∧
    (start (plainEnv "Mojang".toList false []) fixedSink
      (Download.make "https://a.example/f".toList false
        ⟨Job_Aborted, Job_InProgress, Job_Finished, false⟩ 7)).trace =
      [.sinkInit ⟨"https://a.example/f".toList, []⟩] ∧
    Effect.failed 7 ∉
      (start (plainEnv "Mojang".toList false []) fixedSink
        (Download.make "https://a.example/f".toList false
          ⟨Job_Aborted, Job_InProgress, Job_Finished, false⟩ 7)).trace := by
  decide

/-- C5 (as the code has it): when the response completes without a redirect and the
status is then `Job_Failed_Proceed`, the sink's `abort` is called and `succeeded` is
reported, whatever `hasLocalData()` returns at that moment; `failed` is not
reported, the reply is released, and the status stays `Job_Failed_Proceed`. -/
theorem finished_failed_proceed (env : Env) (sink : Sink σ) (d : Download σ)
    (reply : QNetworkReply) (resp : Response)
    (hr : (handleRedirect env sink d reply resp).1 = false)
    (hs : (handleRedirect env sink d reply resp).2.m_status = Job_Failed_Proceed) :
    d.since (downloadFinished env sink d reply resp) =
      [.sinkAbort, .succeeded d.m_index_within_job] ∧
    (downloadFinished env sink d reply resp).m_status = Job_Failed_Proceed ∧
    (downloadFinished env sink d reply resp).m_sink = sink.abort d.m_sink ∧
    (downloadFinished env sink d reply resp).m_reply = none := by
  have h := handleRedirect_false env sink d reply resp hr
  rw [hs] at h
  simp [downloadFinished, hr, h, Download.since, Download.emit]

/-- C5, witness: a transfer with the accept-local-data option and local data in the
sink, after a transport error, completing with no `Location` header. -/
theorem finished_failed_proceed_witness :
    (downloadFinished (plainEnv "Mojang".toList false []) fixedSink
      (run (plainEnv "Mojang".toList false []) fixedSink
        (Download.make "https://a.example/f".toList true
          ⟨Job_InProgress, Job_InProgress, Job_Finished, true⟩ 3)
        [.start, .error (.other 1)])
      ⟨"https://a.example/f".toList⟩ ⟨none, none, []⟩).m_status = Job_Failed_Proceed :=
  (finished_failed_proceed (plainEnv "Mojang".toList false []) fixedSink
    (run (plainEnv "Mojang".toList false []) fixedSink
      (Download.make "https://a.example/f".toList true
        ⟨Job_InProgress, Job_InProgress, Job_Finished, true⟩ 3)
      [.start, .error (.other 1)])
    ⟨"https://a.example/f".toList⟩ ⟨none, none, []⟩ (by decide) (by decide)).2.1

/-- C5, counterexample: start, a transport error with local data accepted and
present, then completion with no `Location` header. `succeeded` has been reported
and the status is still `Job_Failed_Proceed`, not `Job_Finished`. -/
theorem failed_proceed_left_counterexample :
    (run (plainEnv "Mojang".toList false []) fixedSink
      (Download.make "https://a.example/f".toList true
        ⟨Job_InProgress, Job_InProgress, Job_Finished, true⟩ 3)
      [.start, .error (.other 1), .finished ⟨none, none, []⟩]).trace =
      [.sinkInit ⟨"https://a.example/f".toList, []⟩,
       .get ⟨"https://a.example/f".toList, [("User-Agent".toList, "MiniSkins".toList)]⟩,
       .sinkAbort, .succeeded 3] ∧
    (run (plainEnv "Mojang".toList false []) fixedSink
      (Download.make "https://a.example/f".toList true
        ⟨Job_InProgress, Job_InProgress, Job_Finished, true⟩ 3)
      [.start, .error (.other 1), .finished ⟨none, none, []⟩]).m_status =
      Job_Failed_Proceed := by
  decide

/-- C7: a transport error that is the cancellation error sets the status to
`Job_Aborted`; any other sets it to `Job_Failed_Proceed` exactly when the
accept-local-data option is set and the sink's `hasLocalData()` is true, and to
`Job_Failed` in every other case. -/
theorem downloadError_status (sink : Sink σ) (d : Download σ) (error : NetworkError) :
    (error = .OperationCanceledError →
      (downloadError sink d error).m_status = Job_Aborted) ∧
    (error ≠ .OperationCanceledError →
      ((downloadError sink d error).m_status = Job_Failed_Proceed ↔
        (d.acceptLocalFiles = true ∧ sink.hasLocalData d.m_sink = true)) ∧
      (¬ (d.acceptLocalFiles = true ∧ sink.hasLocalData d.m_sink = true) →
        (downloadError sink d error).m_status = Job_Failed)) := by
  refine ⟨fun h => by simp [downloadError, h], fun h => ?_⟩
  by_cases hc : d.acceptLocalFiles = true ∧ sink.hasLocalData d.m_sink = true
  · simp [downloadError, h, hc]
  · have hc2 : (d.acceptLocalFiles && sink.hasLocalData d.m_sink) = false := by
      cases h1 : d.acceptLocalFiles <;> cases h2 : sink.hasLocalData d.m_sink <;> simp_all
    simp [downloadError, h, hc, hc2]

/-- C8: when the response completes without a redirect and the status is then none
of `Job_Failed_Proceed`, `Job_Failed`, `Job_Aborted`, the remaining bytes are
drained and the sink finalized; `succeeded` is reported exactly when `finalize`
returns `Job_Finished`, and for every other result the sink's `abort` is called,
`failed` is reported and `succeeded` is not. -/
theorem finished_finalize (env : Env) (sink : Sink σ) (d : Download σ)
    (reply : QNetworkReply) (resp : Response)
    (hr : (handleRedirect env sink d reply resp).1 = false)
    (h1 : (handleRedirect env sink d reply resp).2.m_status ≠ Job_Failed_Proceed)
    (h2 : (handleRedirect env sink d reply resp).2.m_status ≠ Job_Failed)
    (h3 : (handleRedirect env sink d reply resp).2.m_status ≠ Job_Aborted) :
    (Effect.succeeded d.m_index_within_job ∈ d.since (downloadFinished env sink d reply resp) ↔
      (sink.finalize (drain sink d resp.data).m_sink resp).1 = Job_Finished) ∧
    ((sink.finalize (drain sink d resp.data).m_sink resp).1 = Job_Finished →
      d.since (downloadFinished env sink d reply resp) =
        d.since (drain sink d resp.data) ++
          [.sinkFinalize, .succeeded d.m_index_within_job]) ∧
    ((sink.finalize (drain sink d resp.data).m_sink resp).1 ≠ Job_Finished →
      d.since (downloadFinished env sink d reply resp) =
        d.since (drain sink d resp.data) ++
          [.sinkFinalize, .sinkAbort, .failed d.m_index_within_job] ∧
      (∀ i, Effect.succeeded i ∉ d.since (downloadFinished env sink d reply resp))) := by
  have h := handleRedirect_false env sink d reply resp hr
  generalize (handleRedirect env sink d reply resp).2.m_status = S at h h1 h2 h3
  by_cases hd : resp.data.length = 0
  · by_cases hf : (sink.finalize d.m_sink resp).1 = Job_Finished <;>
      simp [downloadFinished, hr, h, drain, Download.since, Download.emit, h1, h2, h3, hd, hf]
  · by_cases hf : (sink.finalize (sink.write d.m_sink resp.data).2 resp).1 = Job_Finished <;>
      simp [downloadFinished, hr, h, drain, Download.since, Download.emit, h1, h2, h3, hd, hf]

/-- C8, witness: a transfer in progress whose sink rejects the data at `finalize`
(a checksum mismatch); the last chunk is drained, the sink aborted and `failed`
reported. -/
theorem finished_finalize_witness :
    (run (plainEnv "Mojang".toList false []) fixedSink
      (Download.make "https://a.example/f".toList false
        ⟨Job_InProgress, Job_InProgress, Job_Failed, false⟩ 5)
      [.start, .finished ⟨none, none, [1, 2]⟩]).trace =
      [.sinkInit ⟨"https://a.example/f".toList, []⟩,
       .get ⟨"https://a.example/f".toList, [("User-Agent".toList, "MiniSkins".toList)]⟩,
       .sinkWrite [1, 2], .sinkFinalize, .sinkAbort, .failed 5] ∧
    ¬ Effect.succeeded 5 ∈
      (start (plainEnv "Mojang".toList false []) fixedSink
        (Download.make "https://a.example/f".toList false
          ⟨Job_InProgress, Job_InProgress, Job_Failed, false⟩ 5)).since
      (downloadFinished (plainEnv "Mojang".toList false []) fixedSink
        (start (plainEnv "Mojang".toList false []) fixedSink
          (Download.make "https://a.example/f".toList false
            ⟨Job_InProgress, Job_InProgress, Job_Failed, false⟩ 5))
        ⟨"https://a.example/f".toList⟩ ⟨none, none, [1, 2]⟩) :=
  ⟨by decide,
   ((finished_finalize (plainEnv "Mojang".toList false []) fixedSink
      (start (plainEnv "Mojang".toList false []) fixedSink
        (Download.make "https://a.example/f".toList false
          ⟨Job_InProgress, Job_InProgress, Job_Failed, false⟩ 5))
      ⟨"https://a.example/f".toList⟩ ⟨none, none, [1, 2]⟩
      (by decide) (by decide) (by decide) (by decide)).2.2 (by decide)).2 5⟩

/-! ### Terminal statuses -/

theorem step_keepsAborted (env : Env) (sink : Sink σ) (d : Download σ) (op : Op)
    (hs : d.m_status = Job_Aborted) (hop : op.keepsAborted = true) :
    (step env sink d op).m_status = Job_Aborted := by
  cases op with
  | start => simp [step, start, startImpl, hs, Download.emit]
  | abort => cases hm : d.m_reply <;> simp [step, abort, hm, hs, Download.emit]
  | readyRead data => cases hm : d.m_reply <;> simp [step, downloadReadyRead, hm, hs]
  | progress r t =>
    cases hm : d.m_reply <;> simp [step, downloadProgress, hm, hs, Download.emit]
  | error e =>
    have he : e = .OperationCanceledError := by simpa [Op.keepsAborted] using hop
    cases hm : d.m_reply <;> simp [step, downloadError, hm, hs, he]
  | finished resp =>
    cases hm : d.m_reply with
    | none => simp [step, hs, hm]
    | some reply =>
      cases hl : resp.locationHeader with
      | some R =>
        simp [step, hm, downloadFinished, handleRedirect, hl, start, startImpl, hs,
          Download.emit]
      | none =>
        have hraw : resp.rawLocation = none ∨ resp.rawLocation = some [] := by
          simpa [Op.keepsAborted, hl] using hop
        rcases hraw with hraw | hraw <;>
          simp [step, hm, downloadFinished, handleRedirect, hl, hraw, hs, Download.emit]

theorem step_keepsFinished (env : Env) (sink : Sink σ) (d : Download σ) (op : Op)
    (hs : d.m_status = Job_Finished) (hop : op.keepsFinished d.m_reply.isSome = true) :
    (step env sink d op).m_status = Job_Finished ∧
    (step env sink d op).m_reply = d.m_reply := by
  cases op with
  | start => simp [Op.keepsFinished] at hop
  | error e => simp [Op.keepsFinished] at hop
  | finished resp => simp [Op.keepsFinished] at hop
  | abort =>
    cases hm : d.m_reply with
    | none => simp [Op.keepsFinished, hm] at hop
    | some reply => simp [step, abort, hm, hs, Download.emit]
  | readyRead data => cases hm : d.m_reply <;> simp [step, downloadReadyRead, hm, hs]
  | progress r t =>
    cases hm : d.m_reply <;> simp [step, downloadProgress, hm, hs, Download.emit]

theorem run_keepsAborted (env : Env) (sink : Sink σ) (ops : List Op) (d : Download σ)
    (hs : d.m_status = Job_Aborted) (hops : ∀ op ∈ ops, op.keepsAborted = true) :
    (run env sink d ops).m_status = Job_Aborted := by
  induction ops generalizing d with
  | nil => simpa [run] using hs
  | cons op rest ih =>
    have h1 := step_keepsAborted env sink d op hs (hops op (by simp))
    simpa [run] using ih (step env sink d op) h1 (fun o ho => hops o (by simp [ho]))

theorem run_keepsFinished (env : Env) (sink : Sink σ) (ops : List Op) (d : Download σ)
    (hs : d.m_status = Job_Finished)
    (hops : ∀ op ∈ ops, op.keepsFinished d.m_reply.isSome = true) :
    (run env sink d ops).m_status = Job_Finished := by
  induction ops generalizing d with
  | nil => simpa [run] using hs
  | cons op rest ih =>
    have h1 := step_keepsFinished env sink d op hs (hops op (by simp))
    have h2 := ih (step env sink d op) h1.1
      (fun o ho => by rw [h1.2]; exact hops o (by simp [ho]))
    simpa [run] using h2

/-- C6 (as the code has it): once the status is `Job_Aborted`, it stays so under
every sequence of `start`, `abort`, body-chunk, progress and cancellation-error
operations and of completions whose `Location` header is a valid URL, absent or
empty; once it is `Job_Finished`, it stays so under every sequence of body-chunk
and progress operations and, while a reply is held, of `abort` calls. -/
theorem terminal_status_kept (env : Env) (sink : Sink σ) (d : Download σ) (ops : List Op) :
    (d.m_status = Job_Aborted → (∀ op ∈ ops, op.keepsAborted = true) →
      (run env sink d ops).m_status = Job_Aborted) ∧
    (d.m_status = Job_Finished → (∀ op ∈ ops, op.keepsFinished d.m_reply.isSome = true) →
      (run env sink d ops).m_status = Job_Finished) :=
  ⟨run_keepsAborted env sink ops d, run_keepsFinished env sink ops d⟩

/-- C6, witness: a Download aborted before its start, then started, fed a chunk,
aborted again and started again. -/
theorem terminal_status_kept_witness :
    (run (plainEnv "Mojang".toList false []) fixedSink
      (abort (Download.make "https://a.example/f".toList false
        ⟨Job_InProgress, Job_InProgress, Job_Finished, false⟩ 2))
      [.start, .readyRead [1], .abort, .start]).m_status = Job_Aborted :=
  (terminal_status_kept (plainEnv "Mojang".toList false []) fixedSink
    (abort (Download.make "https://a.example/f".toList false
      ⟨Job_InProgress, Job_InProgress, Job_Finished, false⟩ 2))
    [.start, .readyRead [1], .abort, .start]).1 (by decide) (by decide)

/-- C6, counterexample: a Download is started and its response completes and is
finalized, so the status is `Job_Finished`; a later `abort()` finds no reply held
and sets the status to `Job_Aborted`. -/
theorem finished_then_abort_counterexample :
    (run (plainEnv "Mojang".toList false []) fixedSink
      (Download.make "https://a.example/f".toList false
        ⟨Job_InProgress, Job_InProgress, Job_Finished, false⟩ 2)
      [.start, .finished ⟨none, none, []⟩]).m_status = Job_Finished ∧
    (run (plainEnv "Mojang".toList false []) fixedSink
      (Download.make "https://a.example/f".toList false
        ⟨Job_InProgress, Job_InProgress, Job_Finished, false⟩ 2)
      [.start, .finished ⟨none, none, []⟩, .abort]).m_status = Job_Aborted := by
  decide

/-! ### Redirects -/

/-- With the default download source the rewriting step is the identity. -/
theorem rewriteUrl_default_source (env : Env) (m_url : QString)
    (h : downloadSource env = "Mojang".toList) : rewriteUrl env m_url = m_url := by
  simp [rewriteUrl, h]

/-- C9 (as the code has it): when the completed response has a valid `Location`
URL `R`, the Download's URL is rebound to `R` as it is and `start` runs again on
it. If the status is not `Job_Aborted` and the sink's `init` returns
`Job_InProgress`, the one request then issued goes to what the rewriting step of
`start` makes of `R`, and this is `R` itself when the download source is the default
one. -/
theorem redirect_valid_location (env : Env) (sink : Sink σ) (d : Download σ)
    (reply : QNetworkReply) (resp : Response) (R : QString)
    (hloc : resp.locationHeader = some R) :
    downloadFinished env sink d reply resp = start env sink { d with m_url := R } ∧
    (d.m_status ≠ Job_Aborted →
      (sink.init d.m_sink ⟨rewriteUrl env R, []⟩).1 = Job_InProgress →
      d.since (downloadFinished env sink d reply resp) =
        [.sinkInit ⟨rewriteUrl env R, []⟩,
         .get ⟨rewriteUrl env R, ("User-Agent".toList, env.USER_AGENT) :: d.m_extra_headers⟩] ∧
      (downloadFinished env sink d reply resp).m_url = rewriteUrl env R ∧
      (downloadFinished env sink d reply resp).m_reply = some ⟨rewriteUrl env R⟩) ∧
    (downloadSource env = "Mojang".toList → rewriteUrl env R = R) := by
  have h0 : downloadFinished env sink d reply resp = start env sink { d with m_url := R } := by
    simp [downloadFinished, handleRedirect, hloc]
  refine ⟨h0, fun hs hi => ?_, rewriteUrl_default_source env R⟩
  rw [h0]
  simp [start, startImpl, hs, hi, Download.since, Download.emit]

/-- C9, witness: default download source; the redirected request goes to the
`Location` URL itself. -/
theorem redirect_valid_location_witness :
    (run (plainEnv "Mojang".toList false []) fixedSink
      (Download.make "https://a.example/f".toList false
        ⟨Job_InProgress, Job_InProgress, Job_Finished, false⟩ 4)
      [.start, .finished ⟨some "https://b.example/g".toList,
        some (latin1 "https://b.example/g".toList), []⟩]).trace =
      [.sinkInit ⟨"https://a.example/f".toList, []⟩,
       .get ⟨"https://a.example/f".toList, [("User-Agent".toList, "MiniSkins".toList)]⟩,
       .sinkInit ⟨"https://b.example/g".toList, []⟩,
       .get ⟨"https://b.example/g".toList, [("User-Agent".toList, "MiniSkins".toList)]⟩] ∧
    (downloadFinished (plainEnv "Mojang".toList false []) fixedSink
      (start (plainEnv "Mojang".toList false []) fixedSink
        (Download.make "https://a.example/f".toList false
          ⟨Job_InProgress, Job_InProgress, Job_Finished, false⟩ 4))
      ⟨"https://a.example/f".toList⟩
      ⟨some "https://b.example/g".toList,
        some (latin1 "https://b.example/g".toList), []⟩).m_url =
      "https://b.example/g".toList :=
  ⟨by decide,
   ((redirect_valid_location (plainEnv "Mojang".toList false []) fixedSink
      (start (plainEnv "Mojang".toList false []) fixedSink
        (Download.make "https://a.example/f".toList false
          ⟨Job_InProgress, Job_InProgress, Job_Finished, false⟩ 4))
      ⟨"https://a.example/f".toList⟩
      ⟨some "https://b.example/g".toList,
        some (latin1 "https://b.example/g".toList), []⟩
      "https://b.example/g".toList rfl).2.1 (by decide) (by decide)).2.1⟩

/-- C9, counterexample: download source other than the default, proxy mode on,
mirror base `https://mirror.example/`. A response redirects to
`R = https://libraries.minecraft.net/x.jar`; the restarted attempt passes `R` through
the rewriting step, so the next request goes to
`https://mirror.example/https://libraries.minecraft.net/x.jar` and the Download's
URL is that string, not `R`. -/
theorem redirect_rewritten_counterexample :
    (run (plainEnv "BMCLAPI".toList true "https://mirror.example/".toList) fixedSink
      (Download.make "https://a.example/f".toList false
        ⟨Job_InProgress, Job_InProgress, Job_Finished, false⟩ 4)
      [.start, .finished ⟨some "https://libraries.minecraft.net/x.jar".toList,
        some (latin1 "https://libraries.minecraft.net/x.jar".toList), []⟩]).trace =
      [.sinkInit ⟨"https://a.example/f".toList, []⟩,
       .get ⟨"https://a.example/f".toList, [("User-Agent".toList, "MiniSkins".toList)]⟩,
       .sinkInit ⟨"https://mirror.example/https://libraries.minecraft.net/x.jar".toList, []⟩,
       .get ⟨"https://mirror.example/https://libraries.minecraft.net/x.jar".toList,
         [("User-Agent".toList, "MiniSkins".toList)]⟩] ∧
    (run (plainEnv "BMCLAPI".toList true "https://mirror.example/".toList) fixedSink
      (Download.make "https://a.example/f".toList false
        ⟨Job_InProgress, Job_InProgress, Job_Finished, false⟩ 4)
      [.start, .finished ⟨some "https://libraries.minecraft.net/x.jar".toList,
        some (latin1 "https://libraries.minecraft.net/x.jar".toList), []⟩]).m_url ≠
      "https://libraries.minecraft.net/x.jar".toList := by
  decide

/-- C10 (as the code has it): when the completed response has no valid `Location`
URL but a raw `Location` header that is not empty and whose text, after the `//` and
`/` workarounds, does not parse in tolerant mode either, `handleRedirect` raises the
protocol-failure error and returns false: the status becomes `Job_Failed_Proceed`
when local data is accepted and present and `Job_Failed` otherwise, the sink is
aborted and not finalized, and the outcome reported is that of the error. -/
theorem redirect_unparseable (env : Env) (sink : Sink σ) (d : Download σ)
    (reply : QNetworkReply) (resp : Response) (redirectBA : QByteArray)
    (hloc : resp.locationHeader = none)
    (hraw : resp.rawLocation = some redirectBA)
    (hne : redirectBA ≠ [])
    (hparse : env.tolerantParse (fixLocation env reply (env.fromUtf8 redirectBA)) = none) :
    handleRedirect env sink d reply resp = (false, downloadError sink d .ProtocolFailure) ∧
    ((downloadFinished env sink d reply resp).m_status = Job_Failed_Proceed ↔
      (d.acceptLocalFiles = true ∧ sink.hasLocalData d.m_sink = true)) ∧
    ((downloadFinished env sink d reply resp).m_status = Job_Failed ↔
      ¬ (d.acceptLocalFiles = true ∧ sink.hasLocalData d.m_sink = true)) ∧
    Effect.sinkFinalize ∉ d.since (downloadFinished env sink d reply resp) ∧
    d.since (downloadFinished env sink d reply resp) =
      [.sinkAbort,
       if d.acceptLocalFiles && sink.hasLocalData d.m_sink
       then .succeeded d.m_index_within_job else .failed d.m_index_within_job] := by
  have h0 : handleRedirect env sink d reply resp =
      (false, downloadError sink d .ProtocolFailure) := by
    simp [handleRedirect, hloc, hraw, hne, hparse]
  refine ⟨h0, ?_⟩
  cases ha : d.acceptLocalFiles <;> cases hl : sink.hasLocalData d.m_sink <;>
    simp [downloadFinished, h0, downloadError, ha, hl, Download.since, Download.emit]

/-- C10, witness: a `Location` header with an opening bracket that is never closed. -/
theorem redirect_unparseable_witness :
    (run (plainEnv "Mojang".toList false []) fixedSink
      (Download.make "https://a.example/f".toList false
        ⟨Job_InProgress, Job_InProgress, Job_Finished, false⟩ 6)
      [.start, .finished ⟨none, some (latin1 "http://[".toList), []⟩]).m_status = Job_Failed ∧
    (start (plainEnv "Mojang".toList false []) fixedSink
        (Download.make "https://a.example/f".toList false
          ⟨Job_InProgress, Job_InProgress, Job_Finished, false⟩ 6)).since
      (downloadFinished (plainEnv "Mojang".toList false []) fixedSink
        (start (plainEnv "Mojang".toList false []) fixedSink
          (Download.make "https://a.example/f".toList false
            ⟨Job_InProgress, Job_InProgress, Job_Finished, false⟩ 6))
        ⟨"https://a.example/f".toList⟩
        ⟨none, some (latin1 "http://[".toList), []⟩) =
      [.sinkAbort, .failed 6] :=
  ⟨by decide,
   (redirect_unparseable (plainEnv "Mojang".toList false []) fixedSink
      (start (plainEnv "Mojang".toList false []) fixedSink
        (Download.make "https://a.example/f".toList false
          ⟨Job_InProgress, Job_InProgress, Job_Finished, false⟩ 6))
      ⟨"https://a.example/f".toList⟩
      ⟨none, some (latin1 "http://[".toList), []⟩
      (latin1 "http://[".toList) rfl rfl (by decide) (by decide)).2.2.2.2⟩

/-- C10, counterexample: the response carries a raw `Location` header whose value is
empty; the empty text does not parse as a URL, before or after the workarounds,
yet no error is raised: the transfer goes on to `finalize` and reports `succeeded`
as if there were no `Location` header. -/
theorem redirect_empty_location_counterexample :
    (plainEnv "Mojang".toList false []).tolerantParse
      (fixLocation (plainEnv "Mojang".toList false []) ⟨"https://a.example/f".toList⟩
        ((plainEnv "Mojang".toList false []).fromUtf8 [])) = none ∧
    (run (plainEnv "Mojang".toList false []) fixedSink
      (Download.make "https://a.example/f".toList false
        ⟨Job_InProgress, Job_InProgress, Job_Finished, false⟩ 6)
      [.start, .finished ⟨none, some [], []⟩]).trace =
      [.sinkInit ⟨"https://a.example/f".toList, []⟩,
       .get ⟨"https://a.example/f".toList, [("User-Agent".toList, "MiniSkins".toList)]⟩,
       .sinkFinalize, .succeeded 6] ∧
    (run (plainEnv "Mojang".toList false []) fixedSink
      (Download.make "https://a.example/f".toList false
        ⟨Job_InProgress, Job_InProgress, Job_Finished, false⟩ 6)
      [.start, .finished ⟨none, some [], []⟩]).m_status = Job_Finished := by
  decide

/-- C12 (as the code has it): when the completed response has no valid `Location`
URL and its raw `Location` value starts with `//`, the text parsed in tolerant mode
is the scheme of the request's URL, then `:`, then the raw value. When that text
parses, the Download's URL is rebound to the parsed URL and `start` runs again on
it, with the same extra headers on the request it issues; when it does not parse,
the protocol-failure error is raised and there is no restart. -/
theorem redirect_scheme_relative (env : Env) (sink : Sink σ) (d : Download σ)
    (reply : QNetworkReply) (resp : Response) (redirectBA : QByteArray)
    (hloc : resp.locationHeader = none)
    (hraw : resp.rawLocation = some redirectBA)
    (hne : redirectBA ≠ [])
    (hpre : startsWith (env.fromUtf8 redirectBA) "//".toList = true) :
    fixLocation env reply (env.fromUtf8 redirectBA) =
      env.scheme reply.url ++ ":".toList ++ env.fromUtf8 redirectBA ∧
    (∀ target,
      env.tolerantParse (env.scheme reply.url ++ ":".toList ++ env.fromUtf8 redirectBA) =
        some target →
      downloadFinished env sink d reply resp = start env sink { d with m_url := target } ∧
      (d.m_status ≠ Job_Aborted →
        (sink.init d.m_sink ⟨rewriteUrl env target, []⟩).1 = Job_InProgress →
        d.since (downloadFinished env sink d reply resp) =
          [.sinkInit ⟨rewriteUrl env target, []⟩,
           .get ⟨rewriteUrl env target,
             ("User-Agent".toList, env.USER_AGENT) :: d.m_extra_headers⟩])) ∧
    (env.tolerantParse (env.scheme reply.url ++ ":".toList ++ env.fromUtf8 redirectBA) = none →
      handleRedirect env sink d reply resp =
        (false, downloadError sink d .ProtocolFailure)) := by
  have hfix : fixLocation env reply (env.fromUtf8 redirectBA) =
      env.scheme reply.url ++ ":".toList ++ env.fromUtf8 redirectBA := by
    unfold fixLocation
    rw [if_pos hpre]
  refine ⟨hfix, fun target hparse => ?_, fun hparse => ?_⟩
  · rw [← hfix] at hparse
    have h0 : downloadFinished env sink d reply resp =
        start env sink { d with m_url := target } := by
      simp [downloadFinished, handleRedirect, hloc, hraw, hne, hparse]
    refine ⟨h0, fun hs hi => ?_⟩
    rw [h0]
    simp [start, startImpl, hs, hi, Download.since, Download.emit]
  · rw [← hfix] at hparse
    simp [handleRedirect, hloc, hraw, hne, hparse]

/-- C12, witness: `Location: //cdn.example/new/path` on an `https` request. -/
theorem redirect_scheme_relative_witness :
    (run (plainEnv "Mojang".toList false []) fixedSink
      (Download.make "https://a.example/f".toList false
        ⟨Job_InProgress, Job_InProgress, Job_Finished, false⟩ 9)
      [.start, .finished ⟨none, some (latin1 "//cdn.example/new/path".toList), []⟩]).trace =
      [.sinkInit ⟨"https://a.example/f".toList, []⟩,
       .get ⟨"https://a.example/f".toList, [("User-Agent".toList, "MiniSkins".toList)]⟩,
       .sinkInit ⟨"https://cdn.example/new/path".toList, []⟩,
       .get ⟨"https://cdn.example/new/path".toList,
         [("User-Agent".toList, "MiniSkins".toList)]⟩] ∧
    downloadFinished (plainEnv "Mojang".toList false []) fixedSink
        (start (plainEnv "Mojang".toList false []) fixedSink
          (Download.make "https://a.example/f".toList false
            ⟨Job_InProgress, Job_InProgress, Job_Finished, false⟩ 9))
        ⟨"https://a.example/f".toList⟩
        ⟨none, some (latin1 "//cdn.example/new/path".toList), []⟩ =
      start (plainEnv "Mojang".toList false []) fixedSink
        { start (plainEnv "Mojang".toList false []) fixedSink
            (Download.make "https://a.example/f".toList false
              ⟨Job_InProgress, Job_InProgress, Job_Finished, false⟩ 9) with
          m_url := "https://cdn.example/new/path".toList } :=
  ⟨by decide,
   ((redirect_scheme_relative (plainEnv "Mojang".toList false []) fixedSink
      (start (plainEnv "Mojang".toList false []) fixedSink
        (Download.make "https://a.example/f".toList false
          ⟨Job_InProgress, Job_InProgress, Job_Finished, false⟩ 9))
      ⟨"https://a.example/f".toList⟩
      ⟨none, some (latin1 "//cdn.example/new/path".toList), []⟩
      (latin1 "//cdn.example/new/path".toList) rfl rfl (by decide) (by decide)).2.1
      "https://cdn.example/new/path".toList (by decide)).1⟩

/-- C12, counterexample: the raw `Location` value `//[` starts with `//`, but
`https://[` does not parse; the URL of the Download is not rebound, no second request
is issued, and `failed` is reported. -/
theorem redirect_scheme_relative_counterexample :
    (run (plainEnv "Mojang".toList false []) fixedSink
      (Download.make "https://a.example/f".toList false
        ⟨Job_InProgress, Job_InProgress, Job_Finished, false⟩ 9)
      [.start, .finished ⟨none, some (latin1 "//[".toList), []⟩]).trace =
      [.sinkInit ⟨"https://a.example/f".toList, []⟩,
       .get ⟨"https://a.example/f".toList, [("User-Agent".toList, "MiniSkins".toList)]⟩,
       .sinkAbort, .failed 9] ∧
    (run (plainEnv "Mojang".toList false []) fixedSink
      (Download.make "https://a.example/f".toList false
        ⟨Job_InProgress, Job_InProgress, Job_Finished, false⟩ 9)
      [.start, .finished ⟨none, some (latin1 "//[".toList), []⟩]).m_url =
      "https://a.example/f".toList := by
  decide

/-- C13: when the sink's `init` returns `Job_Finished`, `start` reports `succeeded`
once for the Download's index and does nothing else after `init`: the status is
`Job_Finished`, no request is issued, no reply is taken and nothing is written to
the sink. -/
theorem start_cache_hit (env : Env) (sink : Sink σ) (d : Download σ)
    (hstart : d.m_status ≠ Job_Aborted)
    (hinit : (sink.init d.m_sink ⟨rewriteUrl env d.m_url, []⟩).1 = Job_Finished) :
    d.since (start env sink d) =
      [.sinkInit ⟨rewriteUrl env d.m_url, []⟩, .succeeded d.m_index_within_job] ∧
    (start env sink d).m_status = Job_Finished ∧
    (start env sink d).m_reply = d.m_reply ∧
    (start env sink d).m_sink = (sink.init d.m_sink ⟨rewriteUrl env d.m_url, []⟩).2 := by
  simp [start, startImpl, hstart, hinit, Download.since, Download.emit]

/-- C13, witness: a cache hit on a fresh Download. -/
theorem start_cache_hit_witness :
    (start (plainEnv "Mojang".toList false []) fixedSink
      (Download.make "https://a.example/f".toList false
        ⟨Job_Finished, Job_InProgress, Job_Finished, false⟩ 1)).trace =
      [.sinkInit ⟨"https://a.example/f".toList, []⟩, .succeeded 1] :=
  (start_cache_hit (plainEnv "Mojang".toList false []) fixedSink
    (Download.make "https://a.example/f".toList false
      ⟨Job_Finished, Job_InProgress, Job_Finished, false⟩ 1)
    (by decide) (by decide)).1

/-! ### Cancellation -/

/-- In status `Job_Aborted`, an operation that keeps the status adds neither
`succeeded` nor `failed` to the trace. -/
theorem step_aborted_quiet (env : Env) (sink : Sink σ) (d : Download σ) (op : Op)
    (hs : d.m_status = Job_Aborted) (hop : op.keepsAborted = true) :
    ∃ l, (step env sink d op).trace = d.trace ++ l ∧ ∀ e ∈ l, e.isOutcome = false := by
  cases op with
  | start =>
    exact ⟨[.aborted d.m_index_within_job],
      by simp [step, start, startImpl, hs, Download.emit], by simp [Effect.isOutcome]⟩
  | abort =>
    cases hm : d.m_reply with
    | none => exact ⟨[], by simp [step, abort, hm], by simp⟩
    | some reply =>
      exact ⟨[.replyAbort], by simp [step, abort, hm, Download.emit],
        by simp [Effect.isOutcome]⟩
  | readyRead data =>
    exact ⟨[], by cases hm : d.m_reply <;> simp [step, downloadReadyRead, hm, hs], by simp⟩
  | progress r t =>
    cases hm : d.m_reply with
    | none => exact ⟨[], by simp [step, hm], by simp⟩
    | some reply =>
      exact ⟨[.netActionProgress d.m_index_within_job r t],
        by simp [step, downloadProgress, hm, Download.emit], by simp [Effect.isOutcome]⟩
  | error e =>
    have he : e = .OperationCanceledError := by simpa [Op.keepsAborted] using hop
    exact ⟨[], by cases hm : d.m_reply <;> simp [step, downloadError, hm, he], by simp⟩
  | finished resp =>
    cases hm : d.m_reply with
    | none => exact ⟨[], by simp [step, hm], by simp⟩
    | some reply =>
      cases hl : resp.locationHeader with
      | some R =>
        exact ⟨[.aborted d.m_index_within_job],
          by simp [step, hm, downloadFinished, handleRedirect, hl, start, startImpl, hs,
               Download.emit],
          by simp [Effect.isOutcome]⟩
      | none =>
        have hraw : resp.rawLocation = none ∨ resp.rawLocation = some [] := by
          simpa [Op.keepsAborted, hl] using hop
        refine ⟨[.sinkAbort, .aborted d.m_index_within_job], ?_, by simp [Effect.isOutcome]⟩
        rcases hraw with hraw | hraw <;>
          simp [step, hm, downloadFinished, handleRedirect, hl, hraw, hs, Download.emit]

theorem run_aborted_quiet (env : Env) (sink : Sink σ) (ops : List Op) (d : Download σ)
    (hs : d.m_status = Job_Aborted) (hops : ∀ op ∈ ops, op.keepsAborted = true) :
    ∃ l, (run env sink d ops).trace = d.trace ++ l ∧ ∀ e ∈ l, e.isOutcome = false := by
  induction ops generalizing d with
  | nil => exact ⟨[], by simp [run], by simp⟩
  | cons op rest ih =>
    obtain ⟨l1, h1, q1⟩ := step_aborted_quiet env sink d op hs (hops op (by simp))
    have hs1 := step_keepsAborted env sink d op hs (hops op (by simp))
    obtain ⟨l2, h2, q2⟩ := ih (step env sink d op) hs1 (fun o ho => hops o (by simp [ho]))
    refine ⟨l1 ++ l2, ?_, ?_⟩
    · have : run env sink d (op :: rest) = run env sink (step env sink d op) rest := by
        simp [run]
      rw [this, h2, h1, List.append_assoc]
    · intro e he
      rcases List.mem_append.mp he with h | h
      · exact q1 e h
      · exact q2 e h

/-- C11 (as the code has it): with no request in flight `abort()` sets the status to
`Job_Aborted` at once and returns true, and the next `start` reports `aborted` once
for the Download's index without calling the sink's `init` and without issuing a
request. With a request in flight `abort()` asks the reply to cancel; once the
cancellation error has been delivered, the completion reports `aborted`. In both
cases neither `succeeded` nor `failed` is reported afterwards, under every sequence
of `start`, `abort`, body-chunk, progress and cancellation-error operations and of
completions whose `Location` header is a valid URL, absent or empty. -/
theorem abort_no_outcome (env : Env) (sink : Sink σ) (d : Download σ) (ops : List Op)
    (hops : ∀ op ∈ ops, op.keepsAborted = true) :
    (d.m_reply = none →
      (abort d).m_status = Job_Aborted ∧ abortReturn d = true ∧
      d.since (start env sink (abort d)) = [.aborted d.m_index_within_job] ∧
      (start env sink (abort d)).m_sink = d.m_sink ∧
      (start env sink (abort d)).m_reply = none ∧
      (∀ e ∈ d.since (run env sink d (.abort :: ops)), e.isOutcome = false)) ∧
    (d.m_reply ≠ none →
      d.since (abort d) = [.replyAbort] ∧
      (∀ e ∈ d.since (run env sink d (.abort :: .error .OperationCanceledError :: ops)),
        e.isOutcome = false) ∧
      (∀ resp, (Op.finished resp).keepsAborted = true →
        Effect.aborted d.m_index_within_job ∈
          d.since (run env sink d
            [.abort, .error .OperationCanceledError, .finished resp]))) := by
  constructor
  · intro hm
    have ha : abort d = { d with m_status := Job_Aborted } := by simp [abort, hm]
    refine ⟨by simp [ha], rfl, by simp [ha, start, startImpl, Download.since, Download.emit],
      by simp [ha, start, startImpl, Download.emit],
      by simp [ha, start, startImpl, Download.emit, hm], ?_⟩
    obtain ⟨l, hl, hq⟩ := run_aborted_quiet env sink ops (abort d) (by simp [ha]) hops
    have hrun : run env sink d (.abort :: ops) = run env sink (abort d) ops := by
      simp [run, step]
    have htr : (abort d).trace = d.trace := by simp [ha]
    intro e he
    rw [hrun, Download.since, hl, htr] at he
    simp at he
    exact hq e he
  · intro hm
    obtain ⟨reply, hreply⟩ := Option.ne_none_iff_exists'.mp hm
    have ha : abort d = d.emit .replyAbort := by simp [abort, hreply]
    have he2 : step env sink (abort d) (.error .OperationCanceledError) =
        { d.emit .replyAbort with m_status := Job_Aborted } := by
      simp [step, ha, Download.emit, hreply, downloadError]
    refine ⟨by simp [ha, Download.since, Download.emit], ?_, ?_⟩
    · obtain ⟨l, hl, hq⟩ := run_aborted_quiet env sink ops
        { d.emit .replyAbort with m_status := Job_Aborted } rfl hops
      have hrun : run env sink d (.abort :: .error .OperationCanceledError :: ops) =
          run env sink { d.emit .replyAbort with m_status := Job_Aborted } ops := by
        simp only [run, List.foldl_cons]
        rw [show step env sink d .abort = abort d from rfl, he2]
      intro e he
      rw [hrun, Download.since, hl] at he
      simp [Download.emit] at he
      rcases he with he | he
      · simp [he, Effect.isOutcome]
      · exact hq e he
    · intro resp hresp
      have hrun : run env sink d [.abort, .error .OperationCanceledError, .finished resp] =
          step env sink { d.emit .replyAbort with m_status := Job_Aborted }
            (.finished resp) := by
        simp only [run, List.foldl_cons, List.foldl_nil]
        rw [show step env sink d .abort = abort d from rfl, he2]
      rw [hrun]
      cases hl : resp.locationHeader with
      | some R =>
        simp [step, Download.emit, hreply, downloadFinished, handleRedirect, hl, start,
          startImpl, Download.since]
      | none =>
        have hraw : resp.rawLocation = none ∨ resp.rawLocation = some [] := by
          simpa [Op.keepsAborted, hl] using hresp
        rcases hraw with hraw | hraw <;>
          simp [step, Download.emit, hreply, downloadFinished, handleRedirect, hl, hraw,
            Download.since]

/-- C11, witness: a transfer in progress is aborted, the cancellation is delivered
and the reply completes with no `Location` header; a further `start` follows. -/
theorem abort_no_outcome_witness :
    (run (plainEnv "Mojang".toList false []) fixedSink
      (Download.make "https://a.example/f".toList false
        ⟨Job_InProgress, Job_InProgress, Job_Finished, false⟩ 8)
      [.start, .abort, .error .OperationCanceledError, .finished ⟨none, none, []⟩,
       .start]).trace =
      [.sinkInit ⟨"https://a.example/f".toList, []⟩,
       .get ⟨"https://a.example/f".toList, [("User-Agent".toList, "MiniSkins".toList)]⟩,
       .replyAbort, .sinkAbort, .aborted 8, .aborted 8] ∧
    ∀ e ∈ (start (plainEnv "Mojang".toList false []) fixedSink
        (Download.make "https://a.example/f".toList false
          ⟨Job_InProgress, Job_InProgress, Job_Finished, false⟩ 8)).since
      (run (plainEnv "Mojang".toList false []) fixedSink
        (start (plainEnv "Mojang".toList false []) fixedSink
          (Download.make "https://a.example/f".toList false
            ⟨Job_InProgress, Job_InProgress, Job_Finished, false⟩ 8))
        (.abort :: .error .OperationCanceledError ::
          [.finished ⟨none, none, []⟩, .start])), e.isOutcome = false :=
  ⟨by decide,
   ((abort_no_outcome (plainEnv "Mojang".toList false []) fixedSink
      (start (plainEnv "Mojang".toList false []) fixedSink
        (Download.make "https://a.example/f".toList false
          ⟨Job_InProgress, Job_InProgress, Job_Finished, false⟩ 8))
      [.finished ⟨none, none, []⟩, .start] (by decide)).2 (by decide)).2.1⟩

/-- C11, counterexample: a transfer in progress is aborted and the cancellation
error is delivered, so the status is `Job_Aborted`; the reply completes with the raw
`Location` value `http://[`, which does not parse. `handleRedirect` raises the
protocol failure, the status becomes `Job_Failed`, and `failed` is reported after
the abort. -/
theorem abort_then_failed_counterexample :
    (run (plainEnv "Mojang".toList false []) fixedSink
      (Download.make "https://a.example/f".toList false
        ⟨Job_InProgress, Job_InProgress, Job_Finished, false⟩ 8)
      [.start]).m_status = Job_InProgress ∧
    (run (plainEnv "Mojang".toList false []) fixedSink
      (Download.make "https://a.example/f".toList false
        ⟨Job_InProgress, Job_InProgress, Job_Finished, false⟩ 8)
      [.start, .abort, .error .OperationCanceledError]).m_status = Job_Aborted ∧
    (run (plainEnv "Mojang".toList false []) fixedSink
      (Download.make "https://a.example/f".toList false
        ⟨Job_InProgress, Job_InProgress, Job_Finished, false⟩ 8)
      [.start, .abort, .error .OperationCanceledError,
       .finished ⟨none, some (latin1 "http://[".toList), []⟩]).trace =
      [.sinkInit ⟨"https://a.example/f".toList, []⟩,
       .get ⟨"https://a.example/f".toList, [("User-Agent".toList, "MiniSkins".toList)]⟩,
       .replyAbort, .sinkAbort, .failed 8] := by
  decide

/-! ### Write failures -/

/-- C14 (as the code has it): when the sink's `write` returns `Job_Failed` for a body
chunk delivered during the transfer, the status becomes `Job_Failed` and no later
chunk is forwarded to the sink; when the response then completes with no `Location`
header, no transport error having been delivered in between, the sink is aborted,
`failed` is reported, and the sink is not finalized nor `succeeded` reported. -/
theorem chunk_write_failed (env : Env) (sink : Sink σ) (d : Download σ)
    (reply : QNetworkReply) (resp : Response) (data more : QByteArray)
    (hs : d.m_status = Job_InProgress)
    (hw : (sink.write d.m_sink data).1 = Job_Failed)
    (hloc : resp.locationHeader = none)
    (hraw : resp.rawLocation = none ∨ resp.rawLocation = some []) :
    (downloadReadyRead sink d data).m_status = Job_Failed ∧
    downloadReadyRead sink (downloadReadyRead sink d data) more =
      downloadReadyRead sink d data ∧
    d.since (downloadFinished env sink (downloadReadyRead sink d data) reply resp) =
      [.sinkWrite data, .sinkAbort, .failed d.m_index_within_job] ∧
    (downloadFinished env sink (downloadReadyRead sink d data) reply resp).m_status =
      Job_Failed := by
  rcases hraw with hraw | hraw <;>
    simp [downloadReadyRead, hs, hw, downloadFinished, handleRedirect, hloc, hraw,
      Download.since, Download.emit]

/-- C14, witness: the sink rejects the first chunk; a second chunk arrives and the
response completes. -/
theorem chunk_write_failed_witness :
    (run (plainEnv "Mojang".toList false []) fixedSink
      (Download.make "https://a.example/f".toList false
        ⟨Job_InProgress, Job_Failed, Job_Finished, false⟩ 5)
      [.start, .readyRead [1], .readyRead [2], .finished ⟨none, none, []⟩]).trace =
      [.sinkInit ⟨"https://a.example/f".toList, []⟩,
       .get ⟨"https://a.example/f".toList, [("User-Agent".toList, "MiniSkins".toList)]⟩,
       .sinkWrite [1], .sinkAbort, .failed 5] ∧
    (downloadFinished (plainEnv "Mojang".toList false []) fixedSink
      (downloadReadyRead fixedSink
        (start (plainEnv "Mojang".toList false []) fixedSink
          (Download.make "https://a.example/f".toList false
            ⟨Job_InProgress, Job_Failed, Job_Finished, false⟩ 5)) [1])
      ⟨"https://a.example/f".toList⟩ ⟨none, none, []⟩).m_status = Job_Failed :=
  ⟨by decide,
   (chunk_write_failed (plainEnv "Mojang".toList false []) fixedSink
      (start (plainEnv "Mojang".toList false []) fixedSink
        (Download.make "https://a.example/f".toList false
          ⟨Job_InProgress, Job_Failed, Job_Finished, false⟩ 5))
      ⟨"https://a.example/f".toList⟩ ⟨none, none, []⟩ [1] [2]
      (by decide) (by decide) rfl (Or.inl rfl)).2.2.2⟩

/-- C14, counterexample: in both runs the sink's `write` returns `Job_Failed` and
`succeeded` is reported. In the first the failed write is of a chunk; a transport
error follows, local data is accepted and present, so the status becomes
`Job_Failed_Proceed` and the completion reports `succeeded`. In the second the
failed write is of the bytes drained at completion; its result is replaced by that
of `finalize`, which returns `Job_Finished`. -/
theorem write_failed_succeeded_counterexample :
    (run (plainEnv "Mojang".toList false []) fixedSink
      (Download.make "https://a.example/f".toList true
        ⟨Job_InProgress, Job_Failed, Job_Finished, true⟩ 5)
      [.start, .readyRead [1], .error (.other 1), .finished ⟨none, none, []⟩]).trace =
      [.sinkInit ⟨"https://a.example/f".toList, []⟩,
       .get ⟨"https://a.example/f".toList, [("User-Agent".toList, "MiniSkins".toList)]⟩,
       .sinkWrite [1], .sinkAbort, .succeeded 5] ∧
    (run (plainEnv "Mojang".toList false []) fixedSink
      (Download.make "https://a.example/f".toList false
        ⟨Job_InProgress, Job_Failed, Job_Finished, false⟩ 5)
      [.start, .finished ⟨none, none, [1, 2]⟩]).trace =
      [.sinkInit ⟨"https://a.example/f".toList, []⟩,
       .get ⟨"https://a.example/f".toList, [("User-Agent".toList, "MiniSkins".toList)]⟩,
       .sinkWrite [1, 2], .sinkFinalize, .succeeded 5] := by
  decide

/-! ### Idempotence of the rewriting -/

theorem contains_cons_of_contains (c : Char) (s pat : QString)
    (h : contains s pat = true) : contains (c :: s) pat = true := by
  simp [contains, h]

theorem contains_append_self (b y : QString) : contains (b ++ y) b = true := by
  cases b with
  | nil => exact contains_nil _
  | cons c cs =>
    have : (c :: cs).isPrefixOf (c :: (cs ++ y)) = true := by simp
    simp [contains, this]

/-- Replacing a fragment that occurs leaves the replacement text in the result. -/
theorem contains_replaceScan (before b r : QString) (hne : before ≠ []) (s : QString)
    (h : contains s before = true) :
    contains (replaceScan before (b ++ r) 0 s) b = true := by
  induction s with
  | nil =>
    cases before with
    | nil => exact absurd rfl hne
    | cons c cs => simp [contains] at h
  | cons c cs ih =>
    by_cases hp : before.isPrefixOf (c :: cs) = true
    · simp only [replaceScan, hp, if_true, List.append_assoc]
      exact contains_append_self b _
    · have hc : contains cs before = true := by
        simp only [contains, Bool.or_eq_true] at h
        exact h.resolve_left hp
      simp only [replaceScan, hp]
      exact contains_cons_of_contains c _ b (ih hc)

/-- A URL string that contains the base is left as it is by the loop. -/
theorem rewriteLoop_contains_base (useProxy : Bool) (baseUrl host : QString)
    (h : contains host baseUrl = true) (table : List Replacement) (m_url : QString) :
    rewriteLoop useProxy baseUrl host table m_url = m_url := by
  induction table generalizing m_url with
  | nil => rfl
  | cons r rest ih => simp [rewriteLoop, h, ih]

/-- The loop either leaves the URL as it is or binds one that contains the base. -/
theorem rewriteLoop_result (useProxy : Bool) (baseUrl host : QString)
    (table : List Replacement) (htable : ∀ r ∈ table, r.search ≠ []) (m_url : QString) :
    rewriteLoop useProxy baseUrl host table m_url = m_url ∨
    contains (rewriteLoop useProxy baseUrl host table m_url) baseUrl = true := by
  by_cases hb : baseUrl = []
  · right
    rw [hb]
    exact contains_nil _
  induction table generalizing m_url with
  | nil => left; rfl
  | cons r rest ih =>
    have hrest : ∀ x ∈ rest, x.search ≠ [] := fun x hx => htable x (by simp [hx])
    have hr : r.search ≠ [] := htable r (by simp)
    by_cases hm : contains host r.search = true ∧ contains host baseUrl = false
    · cases useProxy with
      | true =>
        right
        have hstep : rewriteLoop true baseUrl host (r :: rest) m_url =
            rewriteLoop true baseUrl host rest (baseUrl ++ host) := by
          simp [rewriteLoop, hm.1, hm.2, hb]
        rw [hstep]
        rcases ih hrest (baseUrl ++ host) with h | h
        · rw [h]
          exact contains_append_self baseUrl host
        · exact h
      | false =>
        right
        have hstep : rewriteLoop false baseUrl host (r :: rest) m_url =
            replaceScan r.search (baseUrl ++ r.replace) 0 host := by
          simp [rewriteLoop, hm.1, hm.2, hb, Net.replace, hr]
        rw [hstep]
        exact contains_replaceScan r.search baseUrl r.replace hr host hm.1
    · have hstep : rewriteLoop useProxy baseUrl host (r :: rest) m_url =
          rewriteLoop useProxy baseUrl host rest m_url := by
        by_cases h1 : contains host r.search = true
        · have h2 : contains host baseUrl = true := by
            cases h : contains host baseUrl
            · exact absurd ⟨h1, h⟩ hm
            · rfl
          simp [rewriteLoop, h2]
        · simp [rewriteLoop, h1]
      rw [hstep]
      exact ih hrest m_url

theorem replacements_search_ne_nil : ∀ r ∈ replacements, r.search ≠ [] := by
  decide

/-- C15: at the string level (the URL strings `u` and the rewritten one are what
`QUrl` prints for them) the rewriting step of `start` is idempotent, for every
download source, proxy-mode flag and mirror base: a rewritten URL contains the
normalised mirror base, and a URL that contains the mirror base is not rewritten. -/
theorem rewriteUrl_idempotent (env : Env) (u : QString)
    (hu : env.urlToString u = u)
    (hv : env.urlToString (rewriteUrl env u) = rewriteUrl env u) :
    rewriteUrl env (rewriteUrl env u) = rewriteUrl env u ∧
    (rewriteUrl env u = u ∨ contains (rewriteUrl env u) (mirrorBase env) = true) ∧
    (contains u (mirrorBase env) = true → rewriteUrl env u = u) := by
  by_cases hsrc : downloadSource env = "Mojang".toList
  · have h := fun m => rewriteUrl_default_source env m hsrc
    exact ⟨h _, Or.inl (h u), fun _ => h u⟩
  · have hdef : ∀ m, rewriteUrl env m =
        rewriteLoop env.Downloadsourceproxy (mirrorBase env) (env.urlToString m)
          replacements m := by
      intro m
      unfold rewriteUrl
      rw [if_pos hsrc]
    have hres := rewriteLoop_result env.Downloadsourceproxy (mirrorBase env)
      (env.urlToString u) replacements replacements_search_ne_nil u
    rw [← hdef u] at hres
    refine ⟨?_, hres, fun hc => ?_⟩
    · rcases hres with h | h
      · rw [h, h]
      · rw [hdef (rewriteUrl env u), hv]
        exact rewriteLoop_contains_base _ _ _ h _ _
    · rw [hdef u, hu]
      exact rewriteLoop_contains_base _ _ _ hc _ _

/-- C15, witness: the scenario URL under the non-proxy rewriting. -/
theorem rewriteUrl_idempotent_witness :
    rewriteUrl (plainEnv "BMCLAPI".toList false "https://mirror.example/".toList)
      (rewriteUrl (plainEnv "BMCLAPI".toList false "https://mirror.example/".toList)
        "https://libraries.minecraft.net/x.jar".toList) =
    rewriteUrl (plainEnv "BMCLAPI".toList false "https://mirror.example/".toList)
      "https://libraries.minecraft.net/x.jar".toList :=
  (rewriteUrl_idempotent (plainEnv "BMCLAPI".toList false "https://mirror.example/".toList)
    "https://libraries.minecraft.net/x.jar".toList rfl rfl).1

end Net
